import Mathlib

/-!
Verification of the snp-guard attestation tooling against its specification.

The development shallowly embeds the two core Rust components:

* the launch-digest computation engine
  (`tools/attestation_server/src/calc_expected_ld.rs`), and
* the attestation-report acquisition / serialization path
  (`tools/attestation_server/src/bin/get_report/main.rs`).

Pure Rust functions become Lean functions; file reads are modelled by an
explicit file-system map `FS : String → Option (List Nat)`; fallible code
returns `Except String _`.  Machine bytes are `Nat` values (reduced `% 256`
where the code produces bytes); the SHA-384 compression primitive and the
binary layout helpers of the external `sev` crate are modelled as executable
deterministic functions, documented at each definition.
-/

namespace SnpGuard

/-- Target CPU family identifier of the host machine.  Modelled from the spec:
the `ProductName` type is declared in `snp_validate_report.rs`, which is not
among the provided sources; the spec describes it only as the "target CPU
family identifier", so it is modelled as a plain enumeration of families. -/
inductive ProductName where
  | milan
  | genoa
deriving DecidableEq

/-- CPU microarchitecture selector handed to the measurement routine,
modelling `sev::measurement::vcpu_types::CpuType`. -/
inductive CpuType where
  | epyc
  | epycV4
  | epycMilan
  | epycGenoa
deriving DecidableEq

/-- Hypervisor type selector, modelling `sev::measurement::vmsa::VMMType`. -/
inductive VMMType where
  | QEMU
  | EC2
  | KRUN
deriving DecidableEq

/-- Committed TCB version numbers, modelling `sev::firmware::host::TcbVersion`. -/
structure TcbVersion where
  bootloader : Nat
  tee : Nat
  snp : Nat
  microcode : Nat
deriving DecidableEq

/-- User facing config struct to specify a VM, embedding `VMDescription` from
`calc_expected_ld.rs`.  The guest-feature bitmask (`GuestFeatures`, a 64-bit
bitfield in the `sev` crate), the platform-info flags and the guest policy
bitmask are embedded as `Nat` bitmasks; the 16-byte identifiers as byte
lists. -/
structure VMDescription where
  host_cpu_family : ProductName
  vcpu_count : Nat
  ovmf_file : String
  guest_features : Nat
  kernel_file : String
  initrd_file : String
  kernel_cmdline : String
  platform_info : Nat
  min_commited_tcb : TcbVersion
  guest_policy : Nat
  family_id : List Nat
  image_id : List Nat
deriving DecidableEq

/-- Argument record of the measurement routine, embedding
`sev::measurement::snp::SnpMeasurementArgs`. -/
structure SnpMeasurementArgs where
  vcpus : Nat
  vcpu_type : CpuType
  ovmf_file : String
  guest_features : Nat
  kernel_file : Option String
  initrd_file : Option String
  append : Option String
  ovmf_hash_str : Option (List Nat)
  vmm_type : Option VMMType
deriving DecidableEq

/-- Construction of the measurement arguments inside
`VMDescription::compute_expected_hash` (calc_expected_ld.rs lines 116-131).
Note that `vcpu_type` is the constant `CpuType::EpycV4` and that
`host_cpu_family`, `guest_policy`, `platform_info`, `min_commited_tcb`,
`family_id` and `image_id` are not passed to the measurement. -/
def mkSnpMeasurementArgs (d : VMDescription) : SnpMeasurementArgs :=
  { vcpus := d.vcpu_count
    vcpu_type := CpuType.epycV4
    ovmf_file := d.ovmf_file
    guest_features := d.guest_features
    kernel_file := some d.kernel_file
    initrd_file := some d.initrd_file
    append := if d.kernel_cmdline ≠ "" then some d.kernel_cmdline else none
    ovmf_hash_str := none
    vmm_type := some VMMType.QEMU }

/-- File system seen by the engine: maps a path to the file contents (bytes),
or `none` when the file is missing/unreadable. -/
abbrev FS := String → Option (List Nat)

/-- Modelled from the spec: the SHA-384 primitive used by the measurement
chain.  The compression function itself lives outside the repository (in the
`sev` crate); it is modelled as an executable, deterministic function of the
whole message that produces a 48-byte digest. -/
def sha384 (msg : List Nat) : List Nat :=
  let h := msg.foldl (fun a b => (a * 65599 + b + 1) % 2 ^ 64) (msg.length + 5381)
  (List.range 48).map (fun i => (h / 2 ^ (i % 8 * 8) + i) % 256)

/-- Guest pages are 4096 bytes. -/
def PAGE_SIZE : Nat := 4096

/-- Splitting a blob into fixed-size pages, the final partial page
zero-padded.  The first argument is recursion fuel (the data length bounds the
number of pages). -/
def chunkPages : Nat → List Nat → List (List Nat)
  | _, [] => []
  | fuel + 1, xs =>
      (xs.take PAGE_SIZE ++ List.replicate (PAGE_SIZE - (xs.take PAGE_SIZE).length) 0)
        :: chunkPages fuel (xs.drop PAGE_SIZE)
  | 0, _ => []

/-- Pages of a measured blob. -/
def pagesOf (data : List Nat) : List (List Nat) := chunkPages data.length data

/-- Page-type tag for a normal measured data page. -/
def normalPageTag : Nat := 1

/-- Page-type tag for a vCPU save-state (VMSA) page. -/
def vmsaPageTag : Nat := 2

/-- One step of the running launch-digest accumulator: extend the current
48-byte launch context with the update payload and re-hash. -/
def ldUpdate (acc info : List Nat) : List Nat := sha384 (acc ++ info)

/-- Fold a sequence of pages into the accumulator with a page-type tag. -/
def foldPages (acc : List Nat) (pages : List (List Nat)) (tag : Nat) : List Nat :=
  pages.foldl (fun a p => ldUpdate a (tag :: p)) acc

/-- Encoding of the CPU microarchitecture selector into the save-state page. -/
def cpuTypeCode : CpuType → Nat
  | .epyc => 0
  | .epycV4 => 1
  | .epycMilan => 2
  | .epycGenoa => 3

/-- Little-endian bytes of a 64-bit value. -/
def leBytes8 (v : Nat) : List Nat := (List.range 8).map (fun i => v / 2 ^ (8 * i) % 256)

/-- Modelled from the spec: the synthesized initial register/save-state page
of one vCPU, a 4096-byte page derived from the chosen CPU microarchitecture
and the enabled guest features (the detailed VMSA layout lives in the `sev`
crate). -/
def vmsaPage (t : CpuType) (gf : Nat) : List Nat :=
  let base := cpuTypeCode t :: leBytes8 gf
  base ++ List.replicate (PAGE_SIZE - base.length) 0

/-- Bytes of a command-line string. -/
def strBytes (s : String) : List Nat := s.data.map Char.toNat

/-- Whole-file read through the modelled file system. -/
def readFile (fs : FS) (path : String) : Except String (List Nat) :=
  match fs path with
  | none => .error ("failed to read file " ++ path)
  | some d => .ok d

/-- Read an optional file (absent path means the blob is not measured). -/
def readOptFile (fs : FS) : Option String → Except String (Option (List Nat))
  | none => .ok none
  | some p => (readFile fs p).map some

/-- Modelled from the spec: `sev::measurement::snp::snp_calc_launch_digest`,
the multi-stage digest chain of the secure-processor measurement.  Following
the spec's algorithm description, it seeds a zero launch context, folds in the
firmware-image digest (hashing the firmware file unless a precomputed hash was
supplied), then the kernel, initrd and optional command line as zero-padded
pages, then one page-index-tagged save-state page per vCPU. -/
def snpCalcLaunchDigest (fs : FS) (args : SnpMeasurementArgs) :
    Except String (List Nat) := do
  let ovmfData ← readFile fs args.ovmf_file
  let kernelData ← readOptFile fs args.kernel_file
  let initrdData ← readOptFile fs args.initrd_file
  let ovmfDigest :=
    match args.ovmf_hash_str with
    | some h => h
    | none => sha384 ovmfData
  let acc0 := List.replicate 48 0
  let acc1 := ldUpdate acc0 (normalPageTag :: ovmfDigest)
  let acc2 :=
    match kernelData with
    | none => acc1
    | some d => foldPages acc1 (pagesOf d) normalPageTag
  let acc3 :=
    match initrdData with
    | none => acc2
    | some d => foldPages acc2 (pagesOf d) normalPageTag
  let acc4 :=
    match args.append with
    | none => acc3
    | some c => foldPages acc3 (pagesOf (strBytes c)) normalPageTag
  return (List.range args.vcpus).foldl
    (fun a i => ldUpdate a (vmsaPageTag :: i :: vmsaPage args.vcpu_type args.guest_features))
    acc4

/-- Serialization of the digest newtype to a byte vector (`bincode::serialize`
of `SnpLaunchDigest`), which emits exactly the 48 digest bytes. -/
def bincodeSerialize (d : List Nat) : List Nat := d

/-- Embedding of `VMDescription::compute_expected_hash`
(calc_expected_ld.rs lines 115-142): build the measurement arguments, run the
digest chain, serialize the digest and check that it has the expected 48-byte
length. -/
def computeExpectedHash (fs : FS) (d : VMDescription) : Except String (List Nat) :=
  let args := mkSnpMeasurementArgs d
  match snpCalcLaunchDigest fs args with
  | .error e => .error ("failed to compute launch digest: " ++ e)
  | .ok ld =>
    let ldVec := bincodeSerialize ld
    if ldVec.length = 48 then .ok ldVec
    else .error "SnpLaunchDigest has unexpected length"

/-! ## Guest feature presentation

Embedding of `format_guest_features` (calc_expected_ld.rs lines 42-94).  The
`GuestFeatures` accessors of the `sev` crate read the SEV_FEATURES bitfield
positions of AMD APM Table B-4: bits 0-10 are SNPActive through
VmgexitParameter, bit 12 IbsVirtualization, bit 14 VmsaRegProt and bit 15
SmtProtection (bits 11 and 13 have no accessor in the source's chain). -/

/-- The feature-name table, in the order of the source's chain of conditional
pushes, each name paired with its bit position in the SEV_FEATURES mask. -/
def featTable : List (String × Nat) :=
  [("SNPActive", 0), ("vTOM", 1), ("ReflectVC", 2), ("RestrictedInjection", 3),
   ("AlternateInjection", 4), ("DebugSwap", 5), ("PreventHostIBS", 6),
   ("BTBIsolation", 7), ("VmplSSS", 8), ("SecureTSC", 9),
   ("VmgexitParameter", 10), ("IbsVirtualization", 12), ("VmsaRegProt", 14),
   ("SmtProtection", 15)]

/-- The vector of enabled feature names built by the chain of conditional
pushes in `format_guest_features`. -/
def enabledFeatures (f : Nat) : List String :=
  (if f.testBit 0 then ["SNPActive"] else []) ++
  (if f.testBit 1 then ["vTOM"] else []) ++
  (if f.testBit 2 then ["ReflectVC"] else []) ++
  (if f.testBit 3 then ["RestrictedInjection"] else []) ++
  (if f.testBit 4 then ["AlternateInjection"] else []) ++
  (if f.testBit 5 then ["DebugSwap"] else []) ++
  (if f.testBit 6 then ["PreventHostIBS"] else []) ++
  (if f.testBit 7 then ["BTBIsolation"] else []) ++
  (if f.testBit 8 then ["VmplSSS"] else []) ++
  (if f.testBit 9 then ["SecureTSC"] else []) ++
  (if f.testBit 10 then ["VmgexitParameter"] else []) ++
  (if f.testBit 12 then ["IbsVirtualization"] else []) ++
  (if f.testBit 14 then ["VmsaRegProt"] else []) ++
  (if f.testBit 15 then ["SmtProtection"] else [])

/-- Joining with the `", "` separator (`Vec::join` in the source). -/
def joinComma : List String → String
  | [] => ""
  | [x] => x
  | x :: xs => x ++ ", " ++ joinComma xs

/-- Embedding of `format_guest_features`: the comma-separated list of enabled
feature names, or the literal `"None"` when the list is empty. -/
def formatGuestFeatures (f : Nat) : String :=
  let e := enabledFeatures f
  if e.isEmpty then "None" else joinComma e

/-- Bitmask of the feature-bit positions that have a name in the source's
chain: bits 0-10, 12, 14 and 15. -/
def namedFeatureMask : Nat := 55295

/-- Character-level join used to reason about `joinComma`. -/
def joinData : List (List Char) → List Char
  | [] => []
  | [x] => x
  | x :: xs => x ++ ',' :: ' ' :: joinData xs

/-- Break a character list at the first comma: the part before it, and the
remainder after it when a comma exists. -/
def breakComma : List Char → List Char × Option (List Char)
  | [] => ([], none)
  | c :: rest =>
    if c = ',' then ([], some rest)
    else
      let r := breakComma rest
      (c :: r.1, r.2)

/-- Split a character list on commas, dropping the one character that follows
each comma (the space of the `", "` separator); the first argument is
recursion fuel. -/
def splitComma : Nat → List Char → List (List Char)
  | 0, cs => [cs]
  | fuel + 1, cs =>
    match breakComma cs with
    | (p, none) => [p]
    | (p, some rest) => p :: splitComma fuel (rest.drop 1)

/-- Bit value contributed by one rendered feature name: looked up in the
name table, unknown names contribute nothing. -/
def featBitValue (cs : List Char) : Nat :=
  ((featTable.find? (fun p => p.1.data = cs)).map (fun p => 2 ^ p.2)).getD 0

/-- Decoder of the rendered feature list back to the bitmask: the literal
`"None"` decodes to the empty mask, otherwise the name list is split on the
separator and each name contributes its feature bit. -/
def decodeGuestFeatures (s : String) : Nat :=
  if s = "None" then 0
  else ((splitComma s.data.length s.data).map featBitValue).foldr (· ||| ·) 0

/-! ## Report codec

Embedding of `AttestationReport::from_bytes` / `AttestationReport::write_bytes`
from the `sev` crate, as used by `get_report/main.rs`.  Modelled from the spec:
the report is a fixed-layout binary structure of 1184 bytes; `from_bytes`
checks the length and slices the fields at their fixed offsets, `write_bytes`
reproduces the exact original wire layout by concatenating the fields. -/

/-- Slice of `l` bytes at offset `o`. -/
def sliceAt (o l : Nat) (xs : List Nat) : List Nat := (xs.drop o).take l

/-- Expected byte length of a raw attestation report. -/
def REPORT_LEN : Nat := 1184

/-- Structured attestation report: every field keeps its raw bytes, at the
fixed offsets of the binary report layout. -/
structure AttestationReport where
  version : List Nat
  guest_svn : List Nat
  policy : List Nat
  family_id : List Nat
  image_id : List Nat
  vmpl : List Nat
  signature_algo : List Nat
  current_tcb : List Nat
  platform_info : List Nat
  author_key_en : List Nat
  reserved1 : List Nat
  report_data : List Nat
  measurement : List Nat
  host_data : List Nat
  id_key_digest : List Nat
  author_key_digest : List Nat
  report_id : List Nat
  report_id_ma : List Nat
  reported_tcb : List Nat
  reserved2 : List Nat
  chip_id : List Nat
  committed_tcb : List Nat
  current_version : List Nat
  committed_version : List Nat
  launch_tcb : List Nat
  reserved3 : List Nat
  signature : List Nat
deriving DecidableEq

namespace AttestationReport

/-- Decode raw report bytes into the structured report; fails when the byte
length does not match the fixed binary schema. -/
def from_bytes (b : List Nat) : Except String AttestationReport :=
  if b.length = REPORT_LEN then
    .ok
      { version := sliceAt 0 4 b
        guest_svn := sliceAt 4 4 b
        policy := sliceAt 8 8 b
        family_id := sliceAt 16 16 b
        image_id := sliceAt 32 16 b
        vmpl := sliceAt 48 4 b
        signature_algo := sliceAt 52 4 b
        current_tcb := sliceAt 56 8 b
        platform_info := sliceAt 64 8 b
        author_key_en := sliceAt 72 4 b
        reserved1 := sliceAt 76 4 b
        report_data := sliceAt 80 64 b
        measurement := sliceAt 144 48 b
        host_data := sliceAt 192 32 b
        id_key_digest := sliceAt 224 48 b
        author_key_digest := sliceAt 272 48 b
        report_id := sliceAt 320 32 b
        report_id_ma := sliceAt 352 32 b
        reported_tcb := sliceAt 384 8 b
        reserved2 := sliceAt 392 24 b
        chip_id := sliceAt 416 64 b
        committed_tcb := sliceAt 480 8 b
        current_version := sliceAt 488 4 b
        committed_version := sliceAt 492 4 b
        launch_tcb := sliceAt 496 8 b
        reserved3 := sliceAt 504 168 b
        signature := sliceAt 672 512 b }
  else .error "failed to build attestation report object from bytes"

/-- Re-encode the structured report to its exact binary wire layout. -/
def write_bytes (r : AttestationReport) : List Nat :=
  r.version ++ r.guest_svn ++ r.policy ++ r.family_id ++ r.image_id ++
  r.vmpl ++ r.signature_algo ++ r.current_tcb ++ r.platform_info ++
  r.author_key_en ++ r.reserved1 ++ r.report_data ++ r.measurement ++
  r.host_data ++ r.id_key_digest ++ r.author_key_digest ++ r.report_id ++
  r.report_id_ma ++ r.reported_tcb ++ r.reserved2 ++ r.chip_id ++
  r.committed_tcb ++ r.current_version ++ r.committed_version ++
  r.launch_tcb ++ r.reserved3 ++ r.signature

end AttestationReport

/-! ## Base64 decoding

Model of the `base64` crate engine `general_purpose::STANDARD_NO_PAD` used at
main.rs line 70: the standard alphabet, no padding accepted (`'='` is not a
valid symbol), trailing bits required to be zero. -/

/-- Index of a character in the standard base64 alphabet, or `none` for any
character outside it (including the padding character). -/
def b64Index (c : Char) : Option Nat :=
  if 'A' ≤ c ∧ c ≤ 'Z' then some (c.toNat - 'A'.toNat)
  else if 'a' ≤ c ∧ c ≤ 'z' then some (c.toNat - 'a'.toNat + 26)
  else if '0' ≤ c ∧ c ≤ '9' then some (c.toNat - '0'.toNat + 52)
  else if c = '+' then some 62
  else if c = '/' then some 63
  else none

/-- Map every character to its alphabet index, failing on the first invalid
symbol. -/
def b64Indices : List Char → Except String (List Nat)
  | [] => .ok []
  | c :: rest =>
    match b64Index c with
    | none => .error "invalid symbol"
    | some i => (b64Indices rest).map (i :: ·)

/-- Reassemble bytes from 6-bit groups, four symbols to three bytes, with the
unpadded 2- and 3-symbol tails of the no-padding encoding; trailing bits must
be zero. -/
def b64Groups : List Nat → Except String (List Nat)
  | [] => .ok []
  | a :: b :: c :: d :: rest =>
    (b64Groups rest).map
      (fun tl => (a * 4 + b / 16) :: (b % 16 * 16 + c / 4) :: (c % 64 * 64 + d) % 256 :: tl)
  | [a, b] =>
    if b % 16 = 0 then .ok [a * 4 + b / 16] else .error "invalid trailing bits"
  | [a, b, c] =>
    if c % 4 = 0 then .ok [a * 4 + b / 16, b % 16 * 16 + c / 4]
    else .error "invalid trailing bits"
  | [_] => .error "invalid length"

/-- Decode a base64 string with the unpadded standard engine. -/
def b64DecodeNoPad (s : String) : Except String (List Nat) := do
  let idx ← b64Indices s.data
  b64Groups idx

/-! ## The get_report main flow

Embedding of `main` in `get_report/main.rs`.  The privileged environment
(device, firmware, MSR file, output files) is modelled by an explicit `Env`;
the observable side effects are recorded as a trace of actions. -/

/-- Side-effecting steps of the get_report program, in the order they are
performed.  `fwGetReport` records the exact 64-byte buffer handed to the
firmware. -/
inductive Action where
  | deviceOpen
  | fwGetReport (data : List Nat)
  | msrRead (cpuId : Nat)
  | writeSevJson
  | writeJson
  | writeBinary
deriving DecidableEq

/-- Environment of one run: whether the device opens, what the firmware
returns for a given report-data buffer, the MSR probe outcome, and whether
each output file can be created. -/
structure Env where
  deviceOpenOk : Bool
  fwReport : List Nat → Option (List Nat)
  msrValue : Option Nat
  writeSevOk : Bool
  writeJsonOk : Bool
  writeBinOk : Bool

/-- Zero-padding of the decoded report data to exactly 64 bytes
(main.rs lines 79-80). -/
def padReportData (raw : List Nat) : List Nat :=
  raw ++ List.replicate (64 - raw.length) 0

/-- The MSR-probe and SEV-feature-file section of `main`
(main.rs lines 88-118): on a successful MSR read the derived feature value is
written to a JSON file (whose creation failure aborts); on a failed read only
remediation guidance is printed and the program continues. -/
def msrSection (env : Env) (cpuId : Nat) (tr : List Action) :
    List Action × Except String Unit :=
  match env.msrValue with
  | some _ =>
    if env.writeSevOk then (tr ++ [Action.msrRead cpuId, Action.writeSevJson], .ok ())
    else (tr ++ [Action.msrRead cpuId], .error "failed to create SEV feature file report")
  | none => (tr ++ [Action.msrRead cpuId], .ok ())

/-- Embedding of `main` in `get_report/main.rs` (lines 67-136): decode the
base64 report data, reject lengths above 64 before touching the device,
zero-pad to 64 bytes, open the firmware device, request the report, decode it,
run the MSR probe section, then write the JSON and binary artifacts. -/
def mainFlow (env : Env) (reportDataArg : String) (cpuId : Nat) :
    List Action × Except String Unit :=
  match b64DecodeNoPad reportDataArg with
  | .error _ => ([], .error "failed to decode report_data as base64")
  | .ok raw =>
    if raw.length > 64 then
      ([], .error ("report data length should be <= 64 bytes, but got " ++
        toString raw.length ++ " bytes!"))
    else
      let rd := padReportData raw
      if !env.deviceOpenOk then
        ([Action.deviceOpen], .error "failed to open sev firmware device. Is this a SEV-SNP guest?")
      else
        match env.fwReport rd with
        | none =>
          ([Action.deviceOpen, Action.fwGetReport rd], .error "error getting report from firmware device")
        | some reportBytes =>
          let tr0 := [Action.deviceOpen, Action.fwGetReport rd]
          match AttestationReport.from_bytes reportBytes with
          | .error e => (tr0, .error e)
          | .ok _ =>
            match msrSection env cpuId tr0 with
            | (tr1, .error e) => (tr1, .error e)
            | (tr1, .ok ()) =>
              if !env.writeJsonOk then (tr1, .error "failed to create output file")
              else if !env.writeBinOk then
                (tr1 ++ [Action.writeJson], .error "failed to create file for binary report")
              else (tr1 ++ [Action.writeJson, Action.writeBinary], .ok ())

/-! ## Common concrete inputs used by witnesses and counterexamples -/

/-- A file system where every path resolves to an empty file. -/
def fsEmpty : FS := fun _ => some []

/-- A file system agreeing with `fsEmpty` except at the unused path
`"unrelated"`. -/
def fsEmptyPrimed : FS := fun p => if p = "unrelated" then none else some []

/-- A baseline concrete VM description. -/
def dBase : VMDescription :=
  { host_cpu_family := .milan
    vcpu_count := 1
    ovmf_file := "ovmf.fd"
    guest_features := 1
    kernel_file := "vmlinuz"
    initrd_file := "initrd.img"
    kernel_cmdline := ""
    platform_info := 0
    min_commited_tcb := ⟨0, 0, 0, 0⟩
    guest_policy := 196608
    family_id := List.replicate 16 0
    image_id := List.replicate 16 0 }

/-! ## Helper lemmas about the digest engine -/

/-- Binding a failed `Except` computation short-circuits. -/
@[simp] theorem exceptErrorBind {ε α β : Type} (e : ε) (f : α → Except ε β) :
    (Except.error e >>= f) = Except.error e := rfl

/-- Binding a successful `Except` computation continues with its value. -/
@[simp] theorem exceptOkBind {ε α β : Type} (a : α) (f : α → Except ε β) :
    (Except.ok a >>= f) = f a := rfl

/-- The modelled SHA-384 digest always has 48 bytes. -/
theorem sha384_length (msg : List Nat) : (sha384 msg).length = 48 := by
  simp [sha384]

/-- One accumulator update keeps the 48-byte digest width. -/
theorem ldUpdate_length (acc info : List Nat) : (ldUpdate acc info).length = 48 :=
  sha384_length _

/-- Folding any sequence of pages keeps the digest width. -/
theorem foldPages_length (pages : List (List Nat)) (acc : List Nat) (tag : Nat)
    (h : acc.length = 48) : (foldPages acc pages tag).length = 48 := by
  induction pages generalizing acc with
  | nil => simpa [foldPages] using h
  | cons p ps ih =>
    simpa [foldPages] using ih (ldUpdate acc (tag :: p)) (ldUpdate_length _ _)

/-- The vCPU loop keeps the digest width. -/
theorem vcpuFold_length (is : List Nat) (acc : List Nat) (t : CpuType) (gf : Nat)
    (h : acc.length = 48) :
    (is.foldl (fun a i => ldUpdate a (vmsaPageTag :: i :: vmsaPage t gf)) acc).length = 48 := by
  induction is generalizing acc with
  | nil => simpa using h
  | cons i is ih => simpa using ih _ (ldUpdate_length _ _)

/-- On success the digest chain returns a 48-byte value. -/
theorem snpCalcLaunchDigest_length (fs : FS) (args : SnpMeasurementArgs)
    (ld : List Nat) (h : snpCalcLaunchDigest fs args = .ok ld) : ld.length = 48 := by
  unfold snpCalcLaunchDigest at h
  cases hov : readFile fs args.ovmf_file with
  | error e => simp [hov] at h
  | ok ovmfData =>
    cases hk : readOptFile fs args.kernel_file with
    | error e => simp [hov, hk] at h
    | ok kernelData =>
      cases hi : readOptFile fs args.initrd_file with
      | error e => simp [hov, hk, hi] at h
      | ok initrdData =>
        simp only [hov, hk, hi, exceptOkBind, Except.pure, pure] at h
        have hld := (Except.ok.injEq _ _).mp h.symm
        subst hld
        apply vcpuFold_length
        cases hap : args.append
        · cases initrdData
          · cases kernelData
            · simpa [hap] using ldUpdate_length _ _
            · simp only [hap]
              exact foldPages_length _ _ _ (ldUpdate_length _ _)
          · cases kernelData
            · simp only [hap]
              exact foldPages_length _ _ _ (ldUpdate_length _ _)
            · simp only [hap]
              exact foldPages_length _ _ _ (foldPages_length _ _ _ (ldUpdate_length _ _))
        · apply foldPages_length
          cases initrdData
          · cases kernelData
            · simpa using ldUpdate_length _ _
            · exact foldPages_length _ _ _ (ldUpdate_length _ _)
          · cases kernelData
            · exact foldPages_length _ _ _ (ldUpdate_length _ _)
            · exact foldPages_length _ _ _ (foldPages_length _ _ _ (ldUpdate_length _ _))

/-! ## C1 — vCPU save-state pages and the CPU family field -/

/-- C1 counterexample.  Two descriptors that differ only in the target CPU
family field (`milan` vs `genoa`) are mapped to identical measurement
arguments and produce identical digests, refuting the claim that the digest
computation reflects the descriptor's chosen CPU family at this input. -/
theorem c1_family_ignored_counterexample :
    dBase.host_cpu_family ≠ ({ dBase with host_cpu_family := .genoa }).host_cpu_family ∧
    mkSnpMeasurementArgs dBase = mkSnpMeasurementArgs { dBase with host_cpu_family := .genoa } ∧
    computeExpectedHash fsEmpty dBase =
      computeExpectedHash fsEmpty { dBase with host_cpu_family := .genoa } := by
  refine ⟨by decide, rfl, rfl⟩

/-- C1 amended claim: `compute_expected_hash` hardcodes the vCPU type to
`CpuType::EpycV4`, so the save-state pages never reflect the descriptor's
target CPU family field, and changing only that field never changes the
digest. -/
theorem c1_family_never_affects_digest (fs : FS) (d : VMDescription) (pf : ProductName) :
    (mkSnpMeasurementArgs d).vcpu_type = CpuType.epycV4 ∧
    computeExpectedHash fs { d with host_cpu_family := pf } = computeExpectedHash fs d :=
  ⟨rfl, rfl⟩

/-! ## C2 — zero vCPU count is not rejected -/

/-- C2 counterexample.  With `vcpu_count = 0` (and readable files)
`compute_expected_hash` does not return a configuration error: it succeeds,
because the function performs no vCPU-count validation. -/
theorem c2_zero_vcpus_not_rejected_counterexample :
    ({ dBase with vcpu_count := 0 } : VMDescription).vcpu_count = 0 ∧
    (computeExpectedHash fsEmpty { dBase with vcpu_count := 0 }).isOk = true := by
  exact ⟨rfl, by decide⟩

/-- C2 amended claim: `compute_expected_hash` performs no vCPU-count
validation; a descriptor with `vcpu_count = 0` and readable firmware, kernel
and initrd files yields a successful digest (with zero save-state updates)
rather than a configuration error. -/
theorem c2_zero_vcpus_hashes (fs : FS) (d : VMDescription) (ov kd idd : List Nat)
    (h0 : d.vcpu_count = 0)
    (hov : fs d.ovmf_file = some ov) (hk : fs d.kernel_file = some kd)
    (hi : fs d.initrd_file = some idd) :
    d.vcpu_count = 0 ∧ (computeExpectedHash fs d).isOk = true := by
  refine ⟨h0, ?_⟩
  have hcalc : ∃ ld, snpCalcLaunchDigest fs (mkSnpMeasurementArgs d) = .ok ld := by
    unfold snpCalcLaunchDigest
    simp only [mkSnpMeasurementArgs, readFile, readOptFile, hov, hk, hi, Except.map,
      exceptOkBind]
    exact ⟨_, rfl⟩
  obtain ⟨ld, hld⟩ := hcalc
  have hlen := snpCalcLaunchDigest_length fs _ ld hld
  unfold computeExpectedHash
  simp [hld, bincodeSerialize, hlen, Except.isOk, Except.toBool]

/-- C2 witness: the amended theorem applied at the concrete zero-vCPU
descriptor over the all-empty file system. -/
theorem c2_zero_vcpus_hashes_witness :
    ({ dBase with vcpu_count := 0 } : VMDescription).vcpu_count = 0 ∧
    (computeExpectedHash fsEmpty { dBase with vcpu_count := 0 }).isOk = true :=
  c2_zero_vcpus_hashes fsEmpty { dBase with vcpu_count := 0 } [] [] [] rfl rfl rfl rfl

/-! ## C3 — empty command line is not measured -/

/-- C3: the measurement receives `append = none` exactly when the
descriptor's kernel command line is the empty string, and the verbatim
command line otherwise; consequently the digest chain folds in no
command-line page in the empty case and folds in the command-line pages in
the non-empty case. -/
theorem c3_empty_cmdline_not_measured (d : VMDescription) :
    (d.kernel_cmdline = "" → (mkSnpMeasurementArgs d).append = none) ∧
    (d.kernel_cmdline ≠ "" → (mkSnpMeasurementArgs d).append = some d.kernel_cmdline) := by
  constructor
  · intro h
    simp [mkSnpMeasurementArgs, h]
  · intro h
    simp [mkSnpMeasurementArgs, h]

/-- C3 witness: the theorem applied to a descriptor with an empty command
line and to one with a non-empty command line. -/
theorem c3_empty_cmdline_not_measured_witness :
    (mkSnpMeasurementArgs dBase).append = none ∧
    (mkSnpMeasurementArgs { dBase with kernel_cmdline := "console=ttyS0" }).append =
      some "console=ttyS0" :=
  ⟨(c3_empty_cmdline_not_measured dBase).1 rfl,
   (c3_empty_cmdline_not_measured { dBase with kernel_cmdline := "console=ttyS0" }).2
     (by decide)⟩

/-! ## C7 — determinism of the digest engine -/

/-- C7: the digest engine is a pure deterministic function of the descriptor
and of the contents of the three named files: any two runs over file systems
that agree on the descriptor's firmware, kernel and initrd paths produce
identical results, no matter how the file systems differ elsewhere (the
engine uses no randomness and reads nothing else). -/
theorem c7_engine_deterministic (d : VMDescription) (fs1 fs2 : FS)
    (hov : fs1 d.ovmf_file = fs2 d.ovmf_file)
    (hk : fs1 d.kernel_file = fs2 d.kernel_file)
    (hi : fs1 d.initrd_file = fs2 d.initrd_file) :
    computeExpectedHash fs1 d = computeExpectedHash fs2 d := by
  unfold computeExpectedHash snpCalcLaunchDigest
  simp only [mkSnpMeasurementArgs, readFile, readOptFile, hov, hk, hi]

/-- C7 witness: two file systems that agree on the three measured paths but
differ at the path `"unrelated"` give the same digest for the baseline
descriptor. -/
theorem c7_engine_deterministic_witness :
    computeExpectedHash fsEmpty dBase = computeExpectedHash fsEmptyPrimed dBase :=
  c7_engine_deterministic dBase fsEmpty fsEmptyPrimed (by decide) (by decide) (by decide)

/-! ## C8 — successful digests are 48 bytes -/

/-- C8: whenever `compute_expected_hash` succeeds its output has exactly 48
bytes; the length check on the serialized digest otherwise produces the
descriptive `"SnpLaunchDigest has unexpected length"` failure instead of a
truncated or padded value. -/
theorem c8_digest_is_48_bytes (fs : FS) (d : VMDescription) (r : List Nat)
    (h : computeExpectedHash fs d = .ok r) : r.length = 48 := by
  unfold computeExpectedHash at h
  cases hld : snpCalcLaunchDigest fs (mkSnpMeasurementArgs d) with
  | error e => simp [hld] at h
  | ok ld =>
    simp only [hld] at h
    split at h
    · next hlen =>
      cases h
      exact hlen
    · exact absurd h (by simp)

/-- C8 witness: the theorem applied to the concrete successful run of the
engine on the baseline descriptor over the all-empty file system. -/
theorem c8_digest_is_48_bytes_witness :
    ((computeExpectedHash fsEmpty dBase).toOption.getD []).length = 48 :=
  c8_digest_is_48_bytes fsEmpty dBase _ (by rfl)

/-! ## C5 — report codec round trip -/

/-- Consecutive slices reassemble: the slice of `n` bytes at offset `o`
followed by the remainder from offset `o + n` is the remainder from `o`. -/
theorem slice_glue (o n m : Nat) (h : o + n = m) (xs : List Nat) :
    sliceAt o n xs ++ xs.drop m = xs.drop o := by
  subst h
  unfold sliceAt
  rw [← List.drop_drop n o xs]
  exact List.take_append_drop n (xs.drop o)

set_option maxRecDepth 4000 in
/-- C5: re-encoding a decoded well-formed report reproduces the raw bytes
exactly — for every byte string of the expected report length, decoding
succeeds and `write_bytes` of the decoded report equals the input, hence
decode after re-encode agrees with the original decode. -/
theorem c5_report_roundtrip (b : List Nat) (h : b.length = REPORT_LEN) :
    ∃ r, AttestationReport.from_bytes b = .ok r ∧
      AttestationReport.write_bytes r = b ∧
      AttestationReport.from_bytes (AttestationReport.write_bytes r) =
        AttestationReport.from_bytes b := by
  unfold AttestationReport.from_bytes
  rw [if_pos h]
  have hnil : b.drop 1184 = [] :=
    List.drop_eq_nil_of_le (by rw [h]; exact Nat.le_refl _)
  have e672 : sliceAt 672 512 b = b.drop 672 := by
    calc sliceAt 672 512 b = sliceAt 672 512 b ++ [] := (List.append_nil _).symm
    _ = sliceAt 672 512 b ++ b.drop 1184 := by rw [hnil]
    _ = b.drop 672 := slice_glue 672 512 1184 rfl b
  have hw : AttestationReport.write_bytes
      { version := sliceAt 0 4 b
        guest_svn := sliceAt 4 4 b
        policy := sliceAt 8 8 b
        family_id := sliceAt 16 16 b
        image_id := sliceAt 32 16 b
        vmpl := sliceAt 48 4 b
        signature_algo := sliceAt 52 4 b
        current_tcb := sliceAt 56 8 b
        platform_info := sliceAt 64 8 b
        author_key_en := sliceAt 72 4 b
        reserved1 := sliceAt 76 4 b
        report_data := sliceAt 80 64 b
        measurement := sliceAt 144 48 b
        host_data := sliceAt 192 32 b
        id_key_digest := sliceAt 224 48 b
        author_key_digest := sliceAt 272 48 b
        report_id := sliceAt 320 32 b
        report_id_ma := sliceAt 352 32 b
        reported_tcb := sliceAt 384 8 b
        reserved2 := sliceAt 392 24 b
        chip_id := sliceAt 416 64 b
        committed_tcb := sliceAt 480 8 b
        current_version := sliceAt 488 4 b
        committed_version := sliceAt 492 4 b
        launch_tcb := sliceAt 496 8 b
        reserved3 := sliceAt 504 168 b
        signature := sliceAt 672 512 b } = b := by
    unfold AttestationReport.write_bytes
    simp only [List.append_assoc]
    rw [e672, slice_glue 504 168 672 rfl, slice_glue 496 8 504 rfl,
      slice_glue 492 4 496 rfl, slice_glue 488 4 492 rfl, slice_glue 480 8 488 rfl,
      slice_glue 416 64 480 rfl, slice_glue 392 24 416 rfl, slice_glue 384 8 392 rfl,
      slice_glue 352 32 384 rfl, slice_glue 320 32 352 rfl, slice_glue 272 48 320 rfl,
      slice_glue 224 48 272 rfl, slice_glue 192 32 224 rfl, slice_glue 144 48 192 rfl,
      slice_glue 80 64 144 rfl, slice_glue 76 4 80 rfl, slice_glue 72 4 76 rfl,
      slice_glue 64 8 72 rfl, slice_glue 56 8 64 rfl, slice_glue 52 4 56 rfl,
      slice_glue 48 4 52 rfl, slice_glue 32 16 48 rfl, slice_glue 16 16 32 rfl,
      slice_glue 8 8 16 rfl, slice_glue 4 4 8 rfl, slice_glue 0 4 4 rfl,
      List.drop_zero]
  exact ⟨_, rfl, hw, by rw [hw, if_pos h]⟩

/-- C5 witness: the round trip applied to a concrete 1184-byte report
buffer. -/
theorem c5_report_roundtrip_witness :
    (List.replicate 1184 0).length = REPORT_LEN ∧
    ∃ r, AttestationReport.from_bytes (List.replicate 1184 0) = .ok r ∧
      AttestationReport.write_bytes r = List.replicate 1184 0 ∧
      AttestationReport.from_bytes (AttestationReport.write_bytes r) =
        AttestationReport.from_bytes (List.replicate 1184 0) :=
  ⟨(List.length_replicate 1184 0).trans rfl,
   c5_report_roundtrip _ ((List.length_replicate 1184 0).trans rfl)⟩

/-! ## Concrete environments for the main-flow witnesses -/

/-- An environment where every privileged operation succeeds and the firmware
returns a well-formed 1184-byte report. -/
def envOk : Env :=
  { deviceOpenOk := true
    fwReport := fun _ => some (List.replicate 1184 0)
    msrValue := some 2
    writeSevOk := true
    writeJsonOk := true
    writeBinOk := true }

/-- The all-succeeding environment except that the MSR probe fails. -/
def envMsrFail : Env := { envOk with msrValue := none }

/-- A string of 87 base64 symbols, decoding to 65 raw zero bytes. -/
def b64Of65Bytes : String :=
  "AAAAAAAAAAAAAAAAAAAAAAAAAAAAAAAAAAAAAAAAAAAAAAAAAAAAAAAAAAAAAAAAAAAAAAAAAAAAAAAAAAAAAAA"

/-! ## C4 — report-data length bound and zero padding -/

/-- C4: when the decoded report data exceeds 64 bytes, the program fails with
the error naming the actual length, with an empty action trace — so before
the device is opened or any firmware call is attempted; when it is at most 64
bytes, the padded 64-byte buffer handed to firmware is the input followed by
zero bytes. -/
theorem c4_report_data_bound (env : Env) (cpuId : Nat) (s : String) (raw : List Nat)
    (hdec : b64DecodeNoPad s = .ok raw) :
    (raw.length > 64 →
      mainFlow env s cpuId =
        ([], .error ("report data length should be <= 64 bytes, but got " ++
          toString raw.length ++ " bytes!"))) ∧
    (raw.length ≤ 64 →
      (padReportData raw).length = 64 ∧
      (padReportData raw).take raw.length = raw ∧
      (padReportData raw).drop raw.length = List.replicate (64 - raw.length) 0) := by
  constructor
  · intro hgt
    simp only [mainFlow, hdec, if_pos hgt]
  · intro hle
    refine ⟨?_, ?_, ?_⟩
    · simp only [padReportData, List.length_append, List.length_replicate]
      omega
    · exact List.take_left raw _
    · exact List.drop_left raw _

/-- C4 witness: a 65-byte decoded input is rejected with the length-naming
error and an empty trace, and a 0-byte input pads to the all-zero 64-byte
buffer. -/
theorem c4_report_data_bound_witness :
    mainFlow envOk b64Of65Bytes 0 =
      ([], .error "report data length should be <= 64 bytes, but got 65 bytes!") ∧
    ((padReportData []).length = 64 ∧
      (padReportData []).take 0 = ([] : List Nat) ∧
      (padReportData []).drop 0 = List.replicate 64 0) :=
  ⟨(c4_report_data_bound envOk 0 b64Of65Bytes (List.replicate 65 0) rfl).1
      (by decide),
   (c4_report_data_bound envOk 0 "" [] rfl).2 (by decide)⟩

/-! ## C9 — MSR probe failure does not abort report output -/

/-- C9: when the per-core MSR status probe fails but everything else
succeeds, the program still writes the attestation report to both the JSON
and the binary artifact and exits successfully. -/
theorem c9_msr_failure_nonfatal (env : Env) (s : String) (cpuId : Nat)
    (raw reportBytes : List Nat)
    (hdec : b64DecodeNoPad s = .ok raw) (hle : raw.length ≤ 64)
    (hdev : env.deviceOpenOk = true)
    (hfw : env.fwReport (padReportData raw) = some reportBytes)
    (hrep : reportBytes.length = REPORT_LEN)
    (hmsr : env.msrValue = none)
    (hj : env.writeJsonOk = true) (hb : env.writeBinOk = true) :
    (mainFlow env s cpuId).2 = .ok () ∧
    Action.writeJson ∈ (mainFlow env s cpuId).1 ∧
    Action.writeBinary ∈ (mainFlow env s cpuId).1 := by
  have hflow : mainFlow env s cpuId =
      ([Action.deviceOpen, Action.fwGetReport (padReportData raw),
        Action.msrRead cpuId, Action.writeJson, Action.writeBinary], .ok ()) := by
    simp only [mainFlow, hdec, if_neg (by omega : ¬ raw.length > 64), hdev,
      Bool.not_true, Bool.false_eq_true, if_neg, hfw, AttestationReport.from_bytes,
      hrep, if_pos, msrSection, hmsr]
    simp [hj, hb]
  rw [hflow]
  refine ⟨rfl, ?_, ?_⟩ <;> simp

/-- C9 witness: the theorem applied to a concrete run with an empty nonce, an
all-succeeding environment whose MSR probe fails, and a 1184-byte firmware
report. -/
theorem c9_msr_failure_nonfatal_witness :
    (mainFlow envMsrFail "" 0).2 = .ok () ∧
    Action.writeJson ∈ (mainFlow envMsrFail "" 0).1 ∧
    Action.writeBinary ∈ (mainFlow envMsrFail "" 0).1 :=
  c9_msr_failure_nonfatal envMsrFail "" 0 [] (List.replicate 1184 0) rfl
    (by decide) rfl rfl ((List.length_replicate 1184 0).trans rfl) rfl rfl rfl

/-! ## C10 — padded base64 input is rejected before device access -/

/-- Any character list containing the padding character fails alphabet
mapping. -/
theorem b64Indices_error_of_pad (cs : List Char) (h : '=' ∈ cs) :
    ∃ e, b64Indices cs = .error e := by
  induction cs with
  | nil => cases h
  | cons c rest ih =>
    by_cases hc : c = '='
    · subst hc
      exact ⟨"invalid symbol", rfl⟩
    · cases hidx : b64Index c with
      | none => exact ⟨"invalid symbol", by simp [b64Indices, hidx]⟩
      | some i =>
        have hrest : '=' ∈ rest := by
          cases h with
          | head => exact absurd rfl hc
          | tail _ h => exact h
        obtain ⟨e, he⟩ := ih hrest
        exact ⟨e, by simp [b64Indices, hidx, he, Except.map]⟩

/-- C10: the report-data string is decoded with the unpadded standard base64
engine — any input containing a padding character is rejected with a decode
error and an empty action trace (before any device access), while the default
empty string decodes to zero bytes and pads to the all-zero 64-byte nonce. -/
theorem c10_unpadded_base64_engine :
    (∀ (env : Env) (cpuId : Nat) (s : String), '=' ∈ s.data →
      (mainFlow env s cpuId).1 = [] ∧ ∃ e, (mainFlow env s cpuId).2 = .error e) ∧
    b64DecodeNoPad "" = .ok [] ∧
    padReportData [] = List.replicate 64 0 := by
  refine ⟨?_, rfl, by decide⟩
  intro env cpuId s hs
  obtain ⟨e, he⟩ := b64Indices_error_of_pad s.data hs
  have hdec : b64DecodeNoPad s = .error e := by
    simp [b64DecodeNoPad, he]
  constructor
  · simp [mainFlow, hdec]
  · exact ⟨"failed to decode report_data as base64", by simp [mainFlow, hdec]⟩

/-- C10 witness: the string `"AA=="` — valid padded standard base64 of one
raw byte — is rejected with an empty trace and an error result. -/
theorem c10_unpadded_base64_engine_witness :
    (mainFlow envOk "AA==" 0).1 = [] ∧
    ∃ e, (mainFlow envOk "AA==" 0).2 = .error e :=
  c10_unpadded_base64_engine.1 envOk 0 "AA==" (by decide)

/-! ## C6 — feature-name rendering and its inverse

The helper lemmas relate the if-chain of `format_guest_features` to the
name/bit table, show that the character-level comma splitter inverts the
`", "` join of comma-free parts, and reconstruct the bitmask from the
rendered names. -/

/-- Ground facts about the 14 table entries: names do not start with `N`, are
nonempty and comma-free, look up to their own bit value, and sit on named
mask positions. -/
theorem featTable_facts : ∀ q ∈ featTable,
    q.1.data.head? ≠ some 'N' ∧ q.1.data ≠ [] ∧ ',' ∉ q.1.data ∧
    featBitValue q.1.data = 2 ^ q.2 ∧ namedFeatureMask.testBit q.2 = true := by
  decide

/-- Filtering a cons is prepending the singleton-or-empty of its head. -/
theorem filter_cons_ite {α : Type} (p : α → Bool) (a : α) (l : List α) :
    List.filter p (a :: l) = (if p a then [a] else []) ++ List.filter p l := by
  by_cases h : p a <;> simp [h]

/-- Mapping over a singleton-or-empty conditional list. -/
theorem map_ite_singleton {α β : Type} (f : α → β) (b : Prop) [Decidable b] (a : α) :
    List.map f (if b then [a] else []) = if b then [f a] else [] := by
  by_cases h : b <;> simp [h]

/-- The if-chain of conditional pushes equals filtering the name table by the
feature bits and keeping the names. -/
theorem enabledFeatures_eq_filter (f : Nat) :
    enabledFeatures f = (featTable.filter (fun q => f.testBit q.2)).map Prod.fst := by
  simp only [enabledFeatures, featTable, filter_cons_ite, List.filter_nil,
    List.map_append, map_ite_singleton, List.append_nil, List.map_nil,
    List.append_assoc]

/-- Every rendered name comes from the name table. -/
theorem enabledFeatures_mem (f : Nat) (x : String) (hx : x ∈ enabledFeatures f) :
    ∃ p ∈ featTable, x = p.1 := by
  rw [enabledFeatures_eq_filter] at hx
  obtain ⟨p, hp, hpx⟩ := List.mem_map.mp hx
  exact ⟨p, List.mem_of_mem_filter hp, hpx.symm⟩

/-- The string-level join and the character-level join agree. -/
theorem joinComma_data : ∀ l : List String, (joinComma l).data = joinData (l.map String.data)
  | [] => rfl
  | [x] => rfl
  | x :: y :: rest => by
    have ih := joinComma_data (y :: rest)
    simp only [joinComma, joinData, List.map_cons, String.data_append, ih,
      List.cons_append, List.nil_append, List.append_assoc]

/-- Breaking a comma-free list finds no comma. -/
theorem breakComma_no_comma : ∀ cs : List Char, ',' ∉ cs → breakComma cs = (cs, none)
  | [], _ => rfl
  | c :: rest, h => by
    have hc : ¬ c = ',' := fun hc => h (hc ▸ List.mem_cons_self c rest)
    have ih := breakComma_no_comma rest (fun hr => h (List.mem_cons_of_mem c hr))
    simp [breakComma, hc, ih]

/-- Breaking at the first comma returns the comma-free part before it. -/
theorem breakComma_append : ∀ (x r : List Char), ',' ∉ x →
    breakComma (x ++ ',' :: r) = (x, some r)
  | [], r, _ => by simp [breakComma]
  | c :: x, r, h => by
    have hc : ¬ c = ',' := fun hc => h (hc ▸ List.mem_cons_self c x)
    have ih := breakComma_append x r (fun hr => h (List.mem_cons_of_mem c hr))
    simp [breakComma, hc, ih]

/-- Unfolding the splitter at a list whose break finds no comma. -/
theorem splitComma_succ_nobreak (f : Nat) (cs : List Char)
    (h : breakComma cs = (cs, none)) : splitComma (f + 1) cs = [cs] := by
  simp [splitComma, h]

/-- Unfolding the splitter at a list whose break finds a comma. -/
theorem splitComma_succ_break (f : Nat) (cs p r : List Char)
    (h : breakComma cs = (p, some r)) :
    splitComma (f + 1) cs = p :: splitComma f (r.drop 1) := by
  simp [splitComma, h]

/-- The splitter inverts the character-level join of comma-free parts when
given enough fuel. -/
theorem splitComma_joinData : ∀ (parts : List (List Char)) (fuel : Nat),
    parts ≠ [] → (∀ p ∈ parts, ',' ∉ p) → parts.length ≤ fuel + 1 →
    splitComma fuel (joinData parts) = parts
  | [], _, hne, _, _ => absurd rfl hne
  | [x], fuel, _, hcf, _ => by
    have hx : ',' ∉ x := hcf x (List.mem_singleton.mpr rfl)
    cases fuel with
    | zero => rfl
    | succ f => rw [show joinData [x] = x from rfl,
        splitComma_succ_nobreak f x (breakComma_no_comma x hx)]
  | x :: y :: rest, fuel, _, hcf, hlen => by
    cases fuel with
    | zero => simp at hlen
    | succ f =>
      have hx : ',' ∉ x := hcf x (List.mem_cons_self _ _)
      have hlen2 : (y :: rest).length ≤ f + 1 := by
        simp only [List.length_cons] at hlen ⊢
        omega
      have ih := splitComma_joinData (y :: rest) f (by simp)
        (fun p hp => hcf p (List.mem_cons_of_mem x hp)) hlen2
      rw [show joinData (x :: y :: rest) = x ++ ',' :: ' ' :: joinData (y :: rest) from rfl,
        splitComma_succ_break f _ x (' ' :: joinData (y :: rest))
          (breakComma_append x (' ' :: joinData (y :: rest)) hx)]
      simp only [List.drop_succ_cons, List.drop_zero]
      rw [ih]

/-- Nonempty parts are at most one more than the length of their join. -/
theorem parts_length_le : ∀ parts : List (List Char), (∀ p ∈ parts, p ≠ []) →
    parts.length ≤ (joinData parts).length + 1
  | [], _ => by simp
  | [x], _ => by simp [joinData]
  | x :: y :: rest, hne => by
    have ih := parts_length_le (y :: rest) (fun p hp => hne p (List.mem_cons_of_mem x hp))
    have hx1 : 1 ≤ x.length := by
      cases hx : x with
      | nil => exact absurd hx (hne x (List.mem_cons_self _ _))
      | cons a l => simp
    simp only [joinData, List.length_cons, List.length_append] at ih ⊢
    omega

/-- The character-level join of a nonempty list whose head is nonempty starts
with the head of that head. -/
theorem joinData_head : ∀ (c : Char) (x : List Char) (xs : List (List Char)),
    ∃ t, joinData ((c :: x) :: xs) = c :: t
  | _, x, [] => ⟨x, rfl⟩
  | _, x, y :: ys => ⟨x ++ ',' :: ' ' :: joinData (y :: ys), rfl⟩

/-- The rendered name list of a nonempty selection from the table is never
the literal `"None"`: every feature name starts with a character other than
`N`. -/
theorem joinComma_ne_none (parts : List String) (hne : parts ≠ [])
    (htab : ∀ x ∈ parts, ∃ p ∈ featTable, x = p.1) :
    joinComma parts ≠ "None" := by
  intro heq
  have hdata : (joinComma parts).data = ['N', 'o', 'n', 'e'] := by rw [heq]
  rw [joinComma_data] at hdata
  cases parts with
  | nil => exact hne rfl
  | cons x xs =>
    obtain ⟨p, hp, hx⟩ := htab x (List.mem_cons_self _ _)
    have hfacts := featTable_facts p hp
    cases hxc : x.data with
    | nil => exact (hx ▸ hfacts.2.1) hxc
    | cons c cs =>
      obtain ⟨t, ht⟩ := joinData_head c cs (xs.map String.data)
      rw [List.map_cons, hxc, ht] at hdata
      have hc : c = 'N' := ((List.cons.injEq _ _ _ _).mp hdata).1
      exact (hx ▸ hfacts.1) (by rw [hxc, hc]; rfl)

/-- Bit `j` of the or-fold of the powers `2 ^ q.2` is set exactly when some
listed pair sits at bit position `j`. -/
theorem testBit_orFold (ps : List (String × Nat)) (j : Nat) :
    ((ps.map (fun q : String × Nat => 2 ^ q.2)).foldr (· ||| ·) 0).testBit j
      = ps.any (fun q => q.2 == j) := by
  induction ps with
  | nil => simp
  | cons a ps ih =>
    simp only [List.map_cons, List.foldr_cons, Nat.testBit_or, ih, List.any_cons]
    by_cases h : a.2 = j
    · simp [← h, Nat.testBit_two_pow_self]
    · simp [Nat.testBit_two_pow_of_ne h, h]

/-- A bit of the named mask at position 16 or above is clear. -/
theorem namedMask_high_false (j : Nat) (hj : ¬ j < 16) :
    namedFeatureMask.testBit j = false :=
  Nat.testBit_lt_two_pow (lt_of_lt_of_le (by decide : namedFeatureMask < 2 ^ 16)
    (Nat.pow_le_pow_right (by decide) (Nat.le_of_not_lt hj)))

/-- Every set position of the named mask carries a table entry. -/
theorem namedMask_entry (j : Nat) (hmask : namedFeatureMask.testBit j = true) :
    ∃ p ∈ featTable, p.2 = j := by
  have hj16 : j < 16 := by
    by_contra hj
    rw [namedMask_high_false j hj] at hmask
    cases hmask
  exact (by decide : ∀ i < 16, namedFeatureMask.testBit i = true →
    ∃ p ∈ featTable, p.2 = i) j hj16 hmask

/-- Bits of a mask supported on the named positions factor through the named
mask. -/
theorem testBit_factor (m : Nat) (hm : m &&& namedFeatureMask = m) (j : Nat) :
    m.testBit j = (m.testBit j && namedFeatureMask.testBit j) := by
  conv_lhs => rw [← hm]
  exact Nat.testBit_and m namedFeatureMask j

/-- Reconstruction: or-ing the bit values of the filtered table entries gives
back any bitmask supported on the named feature bits. -/
theorem orFold_filter (m : Nat) (hm : m &&& namedFeatureMask = m) :
    (((featTable.filter (fun q => m.testBit q.2)).map (fun q => 2 ^ q.2)).foldr
      (· ||| ·) 0) = m := by
  apply Nat.eq_of_testBit_eq
  intro j
  rw [testBit_orFold]
  cases hmask : namedFeatureMask.testBit j with
  | false =>
    have hmj : m.testBit j = false := by rw [testBit_factor m hm, hmask, Bool.and_false]
    rw [hmj, List.any_eq_false]
    intro p hp hpj
    have hpj2 : p.2 = j := by simpa using hpj
    have hpmask := (featTable_facts p (List.mem_of_mem_filter hp)).2.2.2.2
    rw [hpj2, hmask] at hpmask
    cases hpmask
  | true =>
    cases hmj : m.testBit j with
    | true =>
      obtain ⟨p, hp, hpj⟩ := namedMask_entry j hmask
      rw [List.any_eq_true]
      refine ⟨p, List.mem_filter.mpr ⟨hp, by rw [hpj, hmj]⟩, by simp [hpj]⟩
    | false =>
      rw [List.any_eq_false]
      intro p hp hpj
      have hpj2 : p.2 = j := by simpa using hpj
      have hpm := (List.mem_filter.mp hp).2
      rw [hpj2, hmj] at hpm
      cases hpm

/-- Decoding inverts rendering on every bitmask supported on the named
feature bits. -/
theorem decode_format (m : Nat) (hm : m &&& namedFeatureMask = m) :
    decodeGuestFeatures (formatGuestFeatures m) = m := by
  by_cases hz : enabledFeatures m = []
  · have hmz : m = 0 := by
      apply Nat.eq_of_testBit_eq
      intro j
      rw [Nat.zero_testBit]
      have hfilter : ∀ p ∈ featTable, ¬ (m.testBit p.2 = true) := by
        rw [enabledFeatures_eq_filter, List.map_eq_nil_iff, List.filter_eq_nil_iff] at hz
        exact hz
      cases hmask : namedFeatureMask.testBit j with
      | false => rw [testBit_factor m hm, hmask, Bool.and_false]
      | true =>
        obtain ⟨p, hp, hpj⟩ := namedMask_entry j hmask
        have hf := hfilter p hp
        rw [hpj] at hf
        exact Bool.eq_false_iff.mpr hf
    subst hmz
    rfl
  · have hfmt : formatGuestFeatures m = joinComma (enabledFeatures m) := by
      unfold formatGuestFeatures
      rw [if_neg (by simpa [List.isEmpty_iff] using hz)]
    have htab := enabledFeatures_mem m
    have hnn : joinComma (enabledFeatures m) ≠ "None" :=
      joinComma_ne_none _ hz (fun x hx => htab x hx)
    have hnonnil : ∀ q ∈ (enabledFeatures m).map String.data, q ≠ [] := by
      intro q hq
      obtain ⟨x, hx, hxq⟩ := List.mem_map.mp hq
      obtain ⟨p, hp, hxp⟩ := htab x hx
      rw [← hxq, hxp]
      exact (featTable_facts p hp).2.1
    have hcf : ∀ q ∈ (enabledFeatures m).map String.data, ',' ∉ q := by
      intro q hq
      obtain ⟨x, hx, hxq⟩ := List.mem_map.mp hq
      obtain ⟨p, hp, hxp⟩ := htab x hx
      rw [← hxq, hxp]
      exact (featTable_facts p hp).2.2.1
    have hfuel : ((enabledFeatures m).map String.data).length ≤
        (joinData ((enabledFeatures m).map String.data)).length + 1 :=
      parts_length_le _ hnonnil
    have hsplit := splitComma_joinData ((enabledFeatures m).map String.data)
      (joinData ((enabledFeatures m).map String.data)).length
      (by simpa using hz) hcf hfuel
    rw [hfmt]
    unfold decodeGuestFeatures
    rw [if_neg hnn, joinComma_data, hsplit]
    have hmap : ((enabledFeatures m).map String.data).map featBitValue =
        (featTable.filter (fun q => m.testBit q.2)).map (fun q => 2 ^ q.2) := by
      rw [enabledFeatures_eq_filter, List.map_map, List.map_map]
      apply List.map_congr_left
      intro p hp
      exact (featTable_facts p (List.mem_of_mem_filter hp)).2.2.2.1
    rw [hmap]
    exact orFold_filter m hm

/-- C6 counterexample.  The rendering is not injective on all bitmasks: the
all-zero mask and the mask with only (unnamed) bit 20 set are distinct yet
both render as the literal `"None"`, so decoding cannot reproduce every
bitmask bit-for-bit. -/
theorem c6_render_not_injective_counterexample :
    formatGuestFeatures 0 = "None" ∧ formatGuestFeatures (2 ^ 20) = "None" ∧
    (0 : Nat) ≠ 2 ^ 20 := by
  refine ⟨rfl, by decide, by decide⟩

/-- C6 amended claim: `format_guest_features` renders the comma-separated
list of enabled feature names, the all-zero bitmask rendering as the literal
`"None"`; the rendering is invertible exactly on the bitmasks supported on
the 14 named feature bits (bits 0-10, 12, 14, 15): on those, decoding the
name list reproduces the bitmask bit-for-bit, and two distinct such bitmasks
never render to the same string.  (Masks with unnamed bits set — bits 11, 13
or 16 and above — lose those bits in the rendering.) -/
theorem c6_feature_roundtrip_on_named_bits :
    formatGuestFeatures 0 = "None" ∧
    (∀ m, m &&& namedFeatureMask = m →
      decodeGuestFeatures (formatGuestFeatures m) = m) ∧
    (∀ m1 m2, m1 &&& namedFeatureMask = m1 → m2 &&& namedFeatureMask = m2 →
      formatGuestFeatures m1 = formatGuestFeatures m2 → m1 = m2) := by
  refine ⟨rfl, fun m hm => decode_format m hm, fun m1 m2 h1 h2 heq => ?_⟩
  rw [← decode_format m1 h1, ← decode_format m2 h2, heq]

/-- C6 witness: the round trip and injectivity applied at the concrete
bitmasks 33 (`SNPActive, DebugSwap`) and 1 (`SNPActive`). -/
theorem c6_feature_roundtrip_witness :
    decodeGuestFeatures (formatGuestFeatures 33) = 33 ∧ (1 : Nat) = 1 :=
  ⟨c6_feature_roundtrip_on_named_bits.2.1 33 (by decide),
   c6_feature_roundtrip_on_named_bits.2.2 1 1 (by decide) (by decide) rfl⟩

end SnpGuard
